import Mathlib

/-!
Shallow embedding of the insights logic of the voice-chatbot backend
(`services/mongodb_service.py` and `services/insights_engine.py`).

Store records become Lean structures; dictionary fields read through
`.get` (which may be absent) become `Option` fields; the document
store's collections become explicit lists passed to each operation.
The datetime library parser `datetime.fromisoformat` and the clock
`datetime.now()` are abstracted as explicit parameters `parseIso` and
`now`: a parse failure is `none` (the `ValueError` the inner bare
`except` swallows), and a successful parse is a naive or aware
datetime — comparing an aware deadline against the naive
`datetime.now()` raises `TypeError`, which escapes the inner handler
and lands in the enclosing function's own `except`.  Floating-point
percentages are modelled as rationals.
-/

namespace Datathon

/-- Python's `in` operator on strings: contiguous substring
containment, tested as "prefix of some suffix". -/
def pyIn (needle hay : String) : Bool :=
  hay.toList.tails.any (fun t => needle.toList.isPrefixOf t)

/-- Python's `str.lower()`, character-wise (sufficient for the ASCII
keywords and names this system compares). -/
def pyLower (s : String) : String := ⟨s.data.map Char.toLower⟩

/-- A value stored in a task's `deadline` field: either an
already-parsed datetime (a timestamp) or an ISO string still to be
parsed, as distinguished by `isinstance(deadline, str)`. -/
inductive DlVal where
  | dt (t : Int)
  | str (s : String)
deriving DecidableEq

/-- Python truthiness of a deadline value (`if task.get('deadline'):`):
a datetime is always truthy, a string is truthy iff non-empty. -/
def DlVal.truthy : DlVal → Bool
  | .dt _ => true
  | .str s => s != ""

/-- A task document, with the fields the service reads via `.get`. -/
structure Task where
  status : Option String
  priority : Option String
  deadline : Option DlVal
  assignee_name : Option String
deriving DecidableEq

/-- Python's `str.replace` for a single-character pattern (the only
use in this code is `replace('Z', '+00:00')`): every occurrence of the
character is substituted by the replacement. -/
def pyReplace1 (pat : Char) (rep : String) (s : String) : String :=
  ⟨(s.data.map (fun c => if c = pat then rep.data else [c])).flatten⟩

/-- A successfully parsed `datetime`.  Python datetimes are naive (no
`tzinfo`) or aware; ordering an aware datetime against the naive
`datetime.now()` raises `TypeError`.  A string carrying a UTC offset
— in particular the `+00:00` this code substitutes for a trailing `Z`
— parses to an aware datetime. -/
inductive ParsedDt where
  | naive (t : Int)
  | aware (t : Int)
deriving DecidableEq

/-- `datetime.fromisoformat(deadline.replace('Z', '+00:00'))` on a
deadline value; a stored datetime passes through (pymongo decodes
datetimes as naive by default), a string is parsed, and `none` models
the `ValueError` swallowed by the bare `except: continue`. -/
def deadlineValue (parseIso : String → Option ParsedDt) : DlVal → Option ParsedDt
  | .dt t => some (.naive t)
  | .str s => parseIso (pyReplace1 'Z' "+00:00" s)

/-- One iteration of the overdue loop appearing (twice, verbatim) in
`get_project_health` and `get_blockers`.  The bare `except: continue`
guards only the parse, so an unparseable string skips the task
(`.ok false`); the comparison `deadline < datetime.now()` sits outside
it, so an aware deadline raises `TypeError` (`.error ()`), which
escapes to the enclosing function's own handler. -/
def overdueStep (parseIso : String → Option ParsedDt) (now : Int) (t : Task) :
    Except Unit Bool :=
  match t.deadline with
  | none => .ok false
  | some d =>
    if d.truthy then
      match deadlineValue parseIso d with
      | none => .ok false
      | some (.naive v) => .ok (decide (v < now) && !(t.status == some "completed"))
      | some (.aware _) => .error ()
    else
      .ok false

/-- A task the loop appends as overdue: its step returns `.ok true`. -/
def isOverdue (parseIso : String → Option ParsedDt) (now : Int) (t : Task) : Bool :=
  match overdueStep parseIso now t with
  | .ok true => true
  | _ => false

/-- The whole overdue loop over the task collection: the accumulated
overdue tasks in collection order, or the propagated `TypeError`. -/
def overdueTasksE (parseIso : String → Option ParsedDt) (now : Int) :
    List Task → Except Unit (List Task)
  | [] => .ok []
  | t :: ts =>
    match overdueStep parseIso now t with
    | .error e => .error e
    | .ok b =>
      match overdueTasksE parseIso now ts with
      | .error e => .error e
      | .ok rest => .ok (if b then t :: rest else rest)

/-- The dictionary returned by `get_project_health` in the non-empty
case. -/
structure Health where
  total_tasks : Nat
  completed : Nat
  in_progress : Nat
  pending : Nat
  completion_percentage : ℚ
  overdue_count : Nat
  overdue_tasks : List Task
  status : String
deriving DecidableEq

/-- Result of `get_project_health`: the `{'status': 'no_data'}`
sentinel for an empty task collection, the `{'status': 'error'}`
sentinel when the overdue loop's comparison raises and the outer
`except Exception` catches it, or the metrics dictionary. -/
inductive HealthResult where
  | no_data
  | error
  | ok (h : Health)
deriving DecidableEq

/-- `MongoDBService.get_project_health`, over the task collection. -/
def get_project_health (parseIso : String → Option ParsedDt) (now : Int)
    (tasks : List Task) : HealthResult :=
  if tasks.isEmpty then .no_data
  else
    let completed := (tasks.filter (fun t => t.status == some "completed")).length
    let in_progress := (tasks.filter (fun t => t.status == some "in_progress")).length
    let pending := (tasks.filter (fun t => t.status == some "pending")).length
    let total := tasks.length
    let completion_percentage : ℚ :=
      if total > 0 then (completed : ℚ) / (total : ℚ) * 100 else 0
    match overdueTasksE parseIso now tasks with
    | .error _ => .error
    | .ok overdue_tasks =>
    .ok
      { total_tasks := total
        completed := completed
        in_progress := in_progress
        pending := pending
        completion_percentage := completion_percentage
        overdue_count := overdue_tasks.length
        overdue_tasks := overdue_tasks.take 5
        status := if completion_percentage > 60 then "on_track" else "at_risk" }

/-- A blocker entry produced by `get_blockers`. -/
structure Blocker where
  type : String
  task : Task
  severity : String
deriving DecidableEq

/-- The Mongo filter `{'priority': {'$in': ['high','critical']},
'status': {'$in': ['pending','blocked']}}`. -/
def isHighPriorityPending (t : Task) : Bool :=
  (t.priority == some "high" || t.priority == some "critical") &&
  (t.status == some "pending" || t.status == some "blocked")

/-- The first blocker category: one entry per task of the
high-priority-pending Mongo query, in collection order. -/
def highPriorityBlockers (tasks : List Task) : List Blocker :=
  (tasks.filter isHighPriorityPending).map
    (fun t => { type := "high_priority_pending", task := t, severity := "high" })

/-- The second blocker category: one entry per task the overdue loop
accumulated. -/
def overdueBlockers (od : List Task) : List Blocker :=
  od.map (fun t => { type := "overdue", task := t, severity := "medium" })

/-- The `blockers` list built by `get_blockers` before the final
truncation, given the overdue tasks the loop accumulated: all
high-priority pending entries first, then all overdue entries. -/
def blockersFull (tasks od : List Task) : List Blocker :=
  highPriorityBlockers tasks ++ overdueBlockers od

/-- `MongoDBService.get_blockers`: the concatenated list truncated to
the first 10 (`return blockers[:10]`), unless the overdue loop's
comparison raises, in which case the outer `except` returns `[]`. -/
def get_blockers (parseIso : String → Option ParsedDt) (now : Int)
    (tasks : List Task) : List Blocker :=
  match overdueTasksE parseIso now tasks with
  | .error _ => []
  | .ok od => (blockersFull tasks od).take 10

/-- A concrete instance of the abstract parser, used by the
counterexamples: like `datetime.fromisoformat`, it turns the offset
form produced by the `Z` substitution into an aware datetime and
rejects everything else. -/
def awareParse : String → Option ParsedDt := fun s =>
  if s = "2020-01-01T00:00:00+00:00" then some (ParsedDt.aware 1577836800) else none

/-- A GitHub contributor document, with the fields the service reads
via `.get` (defaults of 0 / empty list applied at the read sites). -/
structure Contributor where
  name : String
  total_commits : Option Nat
  total_lines_added : Option Nat
  total_lines_deleted : Option Nat
  total_lines_changed : Option Nat
  commits : List String
deriving DecidableEq

/-- The sort key `lambda x: x.get('total_commits', 0)`. -/
def commitsOf (c : Contributor) : Nat := c.total_commits.getD 0

/-- A Jira ticket entry inside a Jira user document. -/
structure Ticket where
  key : String
  status : Option String
deriving DecidableEq

/-- A Jira user document. -/
structure JiraUser where
  name : String
  tickets : List Ticket
deriving DecidableEq

/-- The nested `tasks` dictionary of `get_team_performance`. -/
structure TaskCounts where
  completed : Nat
  in_progress : Nat
  pending : Nat
  total : Nat
deriving DecidableEq

/-- The dictionary returned by `get_team_performance`. -/
structure TeamPerformance where
  total_commits : Nat
  total_lines_added : Nat
  total_lines_deleted : Nat
  total_lines_changed : Nat
  top_contributors : List Contributor
  tasks : TaskCounts
  completion_rate : ℚ
deriving DecidableEq

/-- `MongoDBService.get_team_performance`.  `sorted(contributors,
key=..., reverse=True)` is Python's stable sort run descending on the
key, embedded as `List.mergeSort` with the reflexive-total relation
"has at least as many commits as". -/
def get_team_performance (days : Nat) (contributors : List Contributor)
    (jira_users : List JiraUser) (all_tasks : List Task) : TeamPerformance :=
  let total_commits := (contributors.map (fun c => c.total_commits.getD 0)).sum
  let total_lines_added := (contributors.map (fun c => c.total_lines_added.getD 0)).sum
  let total_lines_deleted := (contributors.map (fun c => c.total_lines_deleted.getD 0)).sum
  let completed_tasks := all_tasks.filter (fun t => t.status == some "completed")
  let in_progress_tasks := all_tasks.filter (fun t => t.status == some "in_progress")
  let pending_tasks := all_tasks.filter (fun t => t.status == some "pending")
  let top_contributors :=
    (contributors.mergeSort (fun a b => decide (commitsOf b ≤ commitsOf a))).take 5
  { total_commits := total_commits
    total_lines_added := total_lines_added
    total_lines_deleted := total_lines_deleted
    total_lines_changed := total_lines_added + total_lines_deleted
    top_contributors := top_contributors
    tasks :=
      { completed := completed_tasks.length
        in_progress := in_progress_tasks.length
        pending := pending_tasks.length
        total := all_tasks.length }
    completion_rate :=
      if all_tasks.isEmpty then 0
      else (completed_tasks.length : ℚ) / (all_tasks.length : ℚ) * 100 }

/-- The Mongo filter `{'name': {'$regex': user_name, '$options': 'i'}}`
used by `find_one`: a case-insensitive partial (substring) match of the
queried name against the record's `name` field. -/
def matchName (user_name record_name : String) : Bool :=
  pyIn (pyLower user_name) (pyLower record_name)

/-- The shaped `result['github']` block of
`get_individual_contribution`. -/
structure GithubStats where
  total_commits : Nat
  lines_added : Nat
  lines_deleted : Nat
  total_lines_changed : Nat
  recent_commits : List String
deriving DecidableEq

/-- Shapes a matched GitHub contributor document. -/
def shapeGithub (g : Contributor) : GithubStats :=
  { total_commits := g.total_commits.getD 0
    lines_added := g.total_lines_added.getD 0
    lines_deleted := g.total_lines_deleted.getD 0
    total_lines_changed := g.total_lines_changed.getD 0
    recent_commits := g.commits.take 5 }

/-- The shaped `result['jira']` block of
`get_individual_contribution`. -/
structure JiraStats where
  total_tickets : Nat
  completed : Nat
  in_progress : Nat
  recent_tickets : List Ticket
deriving DecidableEq

/-- Shapes a matched Jira user document. -/
def shapeJira (j : JiraUser) : JiraStats :=
  { total_tickets := j.tickets.length
    completed := (j.tickets.filter (fun t => t.status == some "Done")).length
    in_progress := (j.tickets.filter (fun t => t.status == some "In Progress")).length
    recent_tickets := j.tickets.take 5 }

/-- The result dictionary of `get_individual_contribution`; a `none`
source models the empty `{}` placeholder left when that source had no
match. -/
structure Contribution where
  name : String
  github : Option GithubStats
  jira : Option JiraStats
deriving DecidableEq

/-- Result of `get_individual_contribution`: the
`{'status': 'user_not_found'}` sentinel or the shaped result. -/
inductive ContributionResult where
  | user_not_found
  | ok (c : Contribution)
deriving DecidableEq

/-- The three collections the insights queries read
(`github_all_data_Datathon`, `jira_all_data_Datathon`, `tasks`). -/
structure DB where
  github_data : List Contributor
  jira_data : List JiraUser
  tasks : List Task
deriving DecidableEq

/-- `MongoDBService.get_individual_contribution`: `find_one` on each of
the two sources (modelled as first match in collection order), the
sentinel when neither matches, otherwise the shaped result. -/
def get_individual_contribution (db : DB) (user_name : String) : ContributionResult :=
  let github_user := db.github_data.find? (fun c => matchName user_name c.name)
  let jira_user := db.jira_data.find? (fun j => matchName user_name j.name)
  match github_user, jira_user with
  | none, none => .user_not_found
  | g, j =>
      .ok { name := user_name, github := g.map shapeGithub, jira := j.map shapeJira }

/-- The dictionary returned by `get_user_status`. -/
structure UserStatus where
  name : String
  jira : Option JiraUser
  github : Option Contributor
  tasks : List Task
deriving DecidableEq

/-- `MongoDBService.get_user_status` (`none` only on a store error,
which the pure model does not produce). -/
def get_user_status (db : DB) (user_name : String) : Option UserStatus :=
  some
    { name := user_name
      jira := db.jira_data.find? (fun j => matchName user_name j.name)
      github := db.github_data.find? (fun c => matchName user_name c.name)
      tasks := db.tasks.filter (fun t =>
        match t.assignee_name with
        | some a => matchName user_name a
        | none => false) }

/-- A value stored in the `context` dictionary built by
`InsightsEngine._gather_context`. -/
inductive ContextVal where
  | userStatus (u : Option UserStatus)
  | individual (c : ContributionResult)
  | teamPerf (p : TeamPerformance)
  | projHealth (h : HealthResult)
  | blockerList (l : List Blocker)
deriving DecidableEq

/-- The person-name keyword group tested against the lower-cased query. -/
def nameKeywords : List String := ["aryan", "ritwik", "mohak", "manu"]

/-- The team/performance keyword group. -/
def teamKeywords : List String := ["team", "everyone", "all", "performance"]

/-- The project/health keyword group. -/
def projectKeywords : List String := ["project", "deadline", "track", "health", "sprint"]

/-- The blocker keyword group. -/
def blockerKeywords : List String := ["blocker", "issue", "problem", "stuck"]

/-- The capitalised member-name list iterated by the inner loop of
`_gather_context` (enumeration order fixed). -/
def memberNames : List String := ["Aryan", "Ritwik", "Mohak", "Manu"]

/-- `InsightsEngine._gather_context`: the context dictionary as an
insertion-ordered association list.  Each keyword group independently
appends its entries; the individual branch resolves the first matching
member name (`break` after the first hit); if nothing matched, the
general overview of team performance plus project health is used. -/
def gather_context (parseIso : String → Option ParsedDt) (now : Int) (db : DB)
    (query : String) : List (String × ContextVal) :=
  let query_lower := pyLower query
  let ctx :=
    (if nameKeywords.any (fun n => pyIn n query_lower) then
      match memberNames.find? (fun n => pyIn (pyLower n) query_lower) with
      | some name =>
          [("user_status", ContextVal.userStatus (get_user_status db name)),
           ("individual_contribution",
             ContextVal.individual (get_individual_contribution db name))]
      | none => []
    else [])
    ++ (if teamKeywords.any (fun w => pyIn w query_lower) then
      [("team_performance",
        ContextVal.teamPerf (get_team_performance 7 db.github_data db.jira_data db.tasks))]
    else [])
    ++ (if projectKeywords.any (fun w => pyIn w query_lower) then
      [("project_health", ContextVal.projHealth (get_project_health parseIso now db.tasks))]
    else [])
    ++ (if blockerKeywords.any (fun w => pyIn w query_lower) then
      [("blockers", ContextVal.blockerList (get_blockers parseIso now db.tasks))]
    else [])
  if ctx.isEmpty then
    [("team_performance",
      ContextVal.teamPerf (get_team_performance 7 db.github_data db.jira_data db.tasks)),
     ("project_health", ContextVal.projHealth (get_project_health parseIso now db.tasks))]
  else ctx

/-- The system prompt returned by `InsightsEngine._load_system_prompt`. -/
def system_prompt : String :=
  "You are an AI Business Insights Assistant for a VP of Engineering.\n\nYou have access to comprehensive data from:\n1. Jira tickets (tasks, status, assignees, deadlines)\n2. GitHub commits (contributors, lines of code, files changed)\n3. Team members: Aryan (AWS Solutions Architect), Ritwik (AWS Backend Developer), Mohak (AWS DevOps Engineer), Manu (AWS Cloud Engineer)\n4. Project timelines and sprints\n\nYour role:\n- Provide clear, concise business insights\n- Speak in a  professional English tone\n- Highlight important metrics and trends\n- Offer actionable recommendations\n- Keep responses under 5 seconds when spoken (around 100-150 words)\n\nResponse Format:\n1. Acknowledge the question briefly\n2. Provide 2-3 key data points\n3. Offer one insight or recommendation\n4. End with a positive encouraging note\n\nAlways be helpful, accurate, and encouraging!"

/-- `InsightsEngine._get_quota_exceeded_response`: the distinct quota
apology, Hindi when the language code starts with `hi`. -/
def get_quota_exceeded_response (language : String) : String :=
  if language.startsWith "hi" then
    "\n            माफ़ करें, AI सर्विस की दैनिक सीमा पूरी हो गई है। \n            कृपया कुछ समय बाद फिर से प्रयास करें या अपने प्रोजेक्ट मैनेजर से संपर्क करें।\n            "
  else
    "\n            I apologize, but I\x27ve reached my daily AI quota limit. \n            The system is working perfectly - please try again in a few hours, or contact your project manager for immediate assistance.\n            Your voice chatbot is fully functional and ready to provide insights once the quota resets!\n            "

/-- `InsightsEngine._get_fallback_response`: the generic apology, Hindi
when the language code equals `hi`. -/
def get_fallback_response (language : String) : String :=
  if language == "hi" then
    "माफ़ कीजिये, मुझे आपकी query process करने में problem हो रही है। कृपया दोबारा try करें।"
  else
    "I\x27m sorry, I\x27m having trouble processing your query. Please try again."

/-- `InsightsEngine._generate_response`.  The language-model
collaborator `llm` (system prompt and user content in, generated text
or an error message out) abstracts the provider SDK call; `pyStr`
abstracts Python's `str()` rendering of a context payload.  On an
error whose text contains `429` or (case-insensitively) `quota`, the
quota apology is returned; on any other error, the generic fallback. -/
def generate_response (llm : String → String → Except String String)
    (pyStr : ContextVal → String) (query : String)
    (context : List (String × ContextVal)) (language : String) : String :=
  let context_str := context.foldl
    (fun acc kv => acc ++ "\n" ++ kv.fst ++ ":\n" ++ (pyStr kv.snd).take 500 ++ "\n")
    ("User Query: " ++ query ++ "\n\nAvailable Data:\n")
  match llm system_prompt context_str with
  | .ok content => content.trim
  | .error error_msg =>
    if pyIn "429" error_msg || pyIn "quota" (pyLower error_msg) then
      get_quota_exceeded_response language
    else
      get_fallback_response language

/-- `InsightsEngine.process_query`: gather context, then generate the
response; every failure path ends in one of the fixed apology strings
rather than an error value. -/
def process_query (llm : String → String → Except String String)
    (pyStr : ContextVal → String) (parseIso : String → Option ParsedDt) (now : Int)
    (db : DB) (query : String) (language : String) : String :=
  generate_response llm pyStr query (gather_context parseIso now db query) language

/-! ## Supporting lemmas -/

/-- An overdue task is never `completed`. -/
theorem isOverdue_status (parseIso : String → Option ParsedDt) (now : Int) (t : Task)
    (h : isOverdue parseIso now t = true) : (t.status == some "completed") = false := by
  unfold isOverdue at h
  split at h
  · rename_i heq
    unfold overdueStep at heq
    split at heq
    · simp at heq
    · split at heq
      · split at heq
        · simp at heq
        · simp only [Except.ok.injEq, Bool.and_eq_true] at heq
          simpa using heq.2
        · simp at heq
      · simp at heq
  · simp at h

/-- A `completed` task is never overdue. -/
theorem isOverdue_of_completed (parseIso : String → Option ParsedDt) (now : Int)
    (t : Task) (hc : t.status = some "completed") :
    isOverdue parseIso now t = false := by
  cases h : isOverdue parseIso now t
  · rfl
  · have := isOverdue_status parseIso now t h
    rw [hc] at this
    simp at this

/-- A completed overdue scan accumulates exactly the tasks whose step
flags them overdue, in collection order. -/
theorem overdueTasksE_ok (parseIso : String → Option ParsedDt) (now : Int) :
    ∀ (tasks od : List Task), overdueTasksE parseIso now tasks = .ok od →
      od = tasks.filter (isOverdue parseIso now)
  | [], od, hok => by
    simp only [overdueTasksE] at hok
    cases hok
    rfl
  | t :: ts, od, hok => by
    simp only [overdueTasksE] at hok
    split at hok
    · cases hok
    · rename_i b hs
      split at hok
      · cases hok
      · rename_i rest hr
        simp only [Except.ok.injEq] at hok
        subst hok
        have ih := overdueTasksE_ok parseIso now ts rest hr
        have hio : isOverdue parseIso now t = b := by
          unfold isOverdue
          rw [hs]
          cases b <;> rfl
        rw [List.filter_cons, hio, ← ih]

/-- The fields of the dictionary `get_project_health` returns in the
non-empty case, in terms of the task collection. -/
theorem health_fields (parseIso : String → Option ParsedDt) (now : Int)
    (tasks : List Task) (h : Health)
    (hres : get_project_health parseIso now tasks = .ok h) :
    h.overdue_count = (tasks.filter (isOverdue parseIso now)).length ∧
    h.overdue_tasks = (tasks.filter (isOverdue parseIso now)).take 5 ∧
    h.completion_percentage =
      ((tasks.filter (fun t => t.status == some "completed")).length : ℚ) /
        (tasks.length : ℚ) * 100 ∧
    h.status = (if 60 < h.completion_percentage then "on_track" else "at_risk") := by
  simp only [get_project_health] at hres
  split at hres
  · cases hres
  · rename_i hne
    split at hres
    · cases hres
    · rename_i od hok
      cases hres
      have hpos : 0 < tasks.length := by
        rw [Bool.not_eq_true, List.isEmpty_eq_false] at hne
        exact List.length_pos.mpr hne
      have hod := overdueTasksE_ok parseIso now tasks od hok
      subst hod
      refine ⟨rfl, rfl, ?_, ?_⟩
      · simp [hpos]
      · rfl

/-- Cross-filtering: if `p` implies `q`, filtering by `q` first does
not change a `p`-filter. -/
theorem filter_filter_of_imp {α : Type} (p q : α → Bool) (l : List α)
    (h : ∀ a, p a = true → q a = true) :
    (l.filter q).filter p = l.filter p := by
  rw [List.filter_filter]
  apply List.filter_congr
  intro a _
  cases hp : p a
  · simp
  · simp [h a hp]

/-! ## Claim theorems -/

/-- C2: a task with status `completed` is never in `overdue_tasks`,
never contributes to `overdue_count` (the count only sees tasks that
are not completed), and never produces a blocker entry of either
kind. -/
theorem completed_never_overdue_or_blocker
    (parseIso : String → Option ParsedDt) (now : Int) (tasks : List Task)
    (t : Task) (h : Health)
    (hres : get_project_health parseIso now tasks = .ok h)
    (hc : t.status = some "completed") :
    isOverdue parseIso now t = false ∧
    t ∉ h.overdue_tasks ∧
    h.overdue_count =
      ((tasks.filter (fun u => !(u.status == some "completed"))).filter
        (isOverdue parseIso now)).length ∧
    ∀ b ∈ get_blockers parseIso now tasks, b.task.status ≠ some "completed" := by
  obtain ⟨hcount, htasks, -, -⟩ := health_fields parseIso now tasks h hres
  have hov := isOverdue_of_completed parseIso now t hc
  refine ⟨hov, ?_, ?_, ?_⟩
  · rw [htasks]
    intro hmem
    have hmem2 := (List.take_sublist 5 _).subset hmem
    rw [List.mem_filter] at hmem2
    rw [hmem2.2] at hov
    cases hov
  · rw [hcount, filter_filter_of_imp]
    intro a ha
    have := isOverdue_status parseIso now a ha
    simp [this]
  · intro b hb
    unfold get_blockers at hb
    split at hb
    · simp at hb
    · rename_i od hok
      have hod := overdueTasksE_ok parseIso now tasks od hok
      subst hod
      have hb2 := (List.take_sublist 10 _).subset hb
      unfold blockersFull highPriorityBlockers overdueBlockers at hb2
      rw [List.mem_append] at hb2
      rcases hb2 with hb2 | hb2
      · rw [List.mem_map] at hb2
        obtain ⟨u, hu, rfl⟩ := hb2
        rw [List.mem_filter] at hu
        intro hcon
        have hc2 : u.status = some "completed" := hcon
        unfold isHighPriorityPending at hu
        rw [hc2] at hu
        simp at hu
      · rw [List.mem_map] at hb2
        obtain ⟨u, hu, rfl⟩ := hb2
        rw [List.mem_filter] at hu
        intro hcon
        have hc2 : u.status = some "completed" := hcon
        have := isOverdue_status parseIso now u hu.2
        rw [hc2] at this
        simp at this

/-- C2 witness. -/
theorem completed_never_overdue_or_blocker_w :
    get_project_health (fun _ => none) 100
        [{ status := some "completed", priority := none,
           deadline := some (DlVal.dt 0), assignee_name := none }] =
      HealthResult.ok
        { total_tasks := 1, completed := 1, in_progress := 0, pending := 0,
          completion_percentage := 100, overdue_count := 0, overdue_tasks := [],
          status := "on_track" } ∧
    ((Task.mk (some "completed") none (some (DlVal.dt 0)) none) ∉
      (Health.mk 1 1 0 0 100 0 [] "on_track").overdue_tasks) := by
  refine ⟨by simp [get_project_health, overdueTasksE, overdueStep, isOverdue, deadlineValue, DlVal.truthy] <;> norm_num, ?_⟩
  exact (completed_never_overdue_or_blocker (fun _ => none) 100
    [{ status := some "completed", priority := none,
       deadline := some (DlVal.dt 0), assignee_name := none }]
    (Task.mk (some "completed") none (some (DlVal.dt 0)) none)
    (Health.mk 1 1 0 0 100 0 [] "on_track")
    (by simp [get_project_health, overdueTasksE, overdueStep, isOverdue, deadlineValue, DlVal.truthy] <;> norm_num) rfl).2.1

/-- C4: in the non-empty case the reported status is `on_track`
exactly when the reported completion percentage exceeds 60; at exactly
60 it is `at_risk`. -/
theorem project_health_threshold
    (parseIso : String → Option ParsedDt) (now : Int) (tasks : List Task) (h : Health)
    (hres : get_project_health parseIso now tasks = .ok h) :
    (h.status = "on_track" ↔ 60 < h.completion_percentage) ∧
    (h.completion_percentage = 60 → h.status = "at_risk") := by
  obtain ⟨-, -, -, hst⟩ := health_fields parseIso now tasks h hres
  constructor
  · rw [hst]
    by_cases hgt : 60 < h.completion_percentage
    · simp [hgt]
    · simp [hgt]
  · intro h60
    rw [hst, h60]
    norm_num

/-- C4 witness: five tasks, three completed, land exactly on 60% and
are reported `at_risk`. -/
theorem project_health_threshold_w :
    get_project_health (fun _ => none) 0
        [Task.mk (some "completed") none none none,
         Task.mk (some "completed") none none none,
         Task.mk (some "completed") none none none,
         Task.mk (some "pending") none none none,
         Task.mk (some "pending") none none none] =
      HealthResult.ok (Health.mk 5 3 0 2 60 0 [] "at_risk") ∧
    (Health.mk 5 3 0 2 60 0 [] "at_risk").status = "at_risk" := by
  refine ⟨by simp [get_project_health, overdueTasksE, overdueStep, isOverdue, deadlineValue, DlVal.truthy] <;> norm_num, ?_⟩
  exact (project_health_threshold (fun _ => none) 0
    [Task.mk (some "completed") none none none,
     Task.mk (some "completed") none none none,
     Task.mk (some "completed") none none none,
     Task.mk (some "pending") none none none,
     Task.mk (some "pending") none none none]
    (Health.mk 5 3 0 2 60 0 [] "at_risk")
    (by simp [get_project_health, overdueTasksE, overdueStep, isOverdue, deadlineValue, DlVal.truthy] <;> norm_num)).2 (by norm_num)

/-- C8: with zero tasks the completion rate is the constant 0, and the
`completed/total` ratio is only used for a non-empty collection. -/
theorem completion_rate_no_div_by_zero (days : Nat)
    (contributors : List Contributor) (jira_users : List JiraUser) :
    (get_team_performance days contributors jira_users []).completion_rate = 0 ∧
    ∀ tasks : List Task, tasks ≠ [] →
      (get_team_performance days contributors jira_users tasks).completion_rate =
        ((tasks.filter (fun t => t.status == some "completed")).length : ℚ) /
          (tasks.length : ℚ) * 100 := by
  constructor
  · rfl
  · intro tasks hne
    simp [get_team_performance, List.isEmpty_eq_false, hne]

/-- C8 witness. -/
theorem completion_rate_no_div_by_zero_w :
    ([Task.mk (some "completed") none none none] ≠ ([] : List Task)) ∧
    (get_team_performance 7 [] [] [Task.mk (some "completed") none none none]).completion_rate =
      (([Task.mk (some "completed") none none none].filter
          (fun t => t.status == some "completed")).length : ℚ) /
        (([Task.mk (some "completed") none none none] : List Task).length : ℚ) * 100 :=
  ⟨by decide, (completion_rate_no_div_by_zero 7 [] []).2
    [Task.mk (some "completed") none none none] (by decide)⟩

/-- C10: a task whose deadline string does not parse is silently
skipped by the overdue computation: it is never overdue, never in
`overdue_tasks`, never contributes to `overdue_count`, and never
yields an `overdue`-type blocker entry, whatever its status. -/
theorem unparseable_deadline_skipped
    (parseIso : String → Option ParsedDt) (now : Int) (tasks : List Task)
    (t : Task) (s : String) (h : Health)
    (hres : get_project_health parseIso now tasks = .ok h)
    (hd : t.deadline = some (DlVal.str s))
    (hp : parseIso (pyReplace1 'Z' "+00:00" s) = none) :
    isOverdue parseIso now t = false ∧
    t ∉ h.overdue_tasks ∧
    h.overdue_count =
      ((tasks.filter (fun u => !(u == t))).filter (isOverdue parseIso now)).length ∧
    ∀ b ∈ get_blockers parseIso now tasks, b.type = "overdue" → b.task ≠ t := by
  obtain ⟨hcount, htasks, -, -⟩ := health_fields parseIso now tasks h hres
  have hov : isOverdue parseIso now t = false := by
    have hdv : deadlineValue parseIso (DlVal.str s) = none := hp
    unfold isOverdue overdueStep
    rw [hd]
    by_cases ht : (DlVal.str s).truthy = true
    · simp [ht, hdv]
    · simp [ht]
  refine ⟨hov, ?_, ?_, ?_⟩
  · rw [htasks]
    intro hmem
    have hmem2 := (List.take_sublist 5 _).subset hmem
    rw [List.mem_filter] at hmem2
    rw [hmem2.2] at hov
    cases hov
  · rw [hcount, filter_filter_of_imp]
    intro a ha
    cases hat : a == t
    · rfl
    · rw [beq_iff_eq] at hat
      rw [hat, hov] at ha
      cases ha
  · intro b hb hty
    unfold get_blockers at hb
    split at hb
    · simp at hb
    · rename_i od hok
      have hod := overdueTasksE_ok parseIso now tasks od hok
      subst hod
      have hb2 := (List.take_sublist 10 _).subset hb
      unfold blockersFull highPriorityBlockers overdueBlockers at hb2
      rw [List.mem_append] at hb2
      rcases hb2 with hb2 | hb2
      · rw [List.mem_map] at hb2
        obtain ⟨u, -, rfl⟩ := hb2
        have hty2 : ("high_priority_pending" : String) = "overdue" := hty
        exact absurd hty2 (by decide)
      · rw [List.mem_map] at hb2
        obtain ⟨u, hu, rfl⟩ := hb2
        rw [List.mem_filter] at hu
        intro hcon
        have hut : u = t := hcon
        rw [hut, hov] at hu
        cases hu.2

/-- Counting, among the blocker entries built from one category, those
that carry a given task and that category's type tag: exactly the
task's multiplicity in the category, here 1. -/
theorem blocker_countP_eq (ty sev : String) (p : Task → Bool) (t : Task)
    (l : List Task) (hp : p t = true) (hcnt : l.count t = 1) :
    ((l.filter p).map (fun u => Blocker.mk ty u sev)).countP
      (fun b => decide (b.task = t) && decide (b.type = ty)) = 1 := by
  rw [List.countP_map, List.countP_filter]
  have he : l.countP (fun a =>
      ((fun b => decide (b.task = t) && decide (b.type = ty)) ∘
        (fun u => Blocker.mk ty u sev)) a && p a) = l.countP (fun a => a == t) := by
    apply List.countP_congr
    intro x _
    simp only [Function.comp_apply, Bool.and_eq_true, decide_eq_true_eq, beq_iff_eq]
    constructor
    · rintro ⟨⟨hx, -⟩, -⟩
      exact hx
    · rintro rfl
      refine ⟨⟨rfl, ?_⟩, hp⟩
      trivial
  rw [he, ← List.count_eq_countP]
  exact hcnt

/-- Blocker entries built from one category never match the other
category's type tag. -/
theorem blocker_countP_ne (ty ty2 sev : String) (p : Task → Bool) (t : Task)
    (l : List Task) (hne : ty ≠ ty2) :
    ((l.filter p).map (fun u => Blocker.mk ty u sev)).countP
      (fun b => decide (b.task = t) && decide (b.type = ty2)) = 0 := by
  rw [List.countP_map, List.countP_filter, List.countP_eq_zero]
  intro a _
  simp only [Function.comp_apply, Bool.and_eq_true, decide_eq_true_eq]
  rintro ⟨⟨-, hty⟩, -⟩
  exact hne hty

/-- C3 (amended): when the overdue scan completes without the
aware-vs-naive comparison `TypeError`, `get_blockers` returns at most
10 entries, the high-priority-pending block followed by the overdue
block, the first category not pre-truncated (when it alone reaches 10
entries the whole output is high-priority-pending), and a task
qualifying for both categories contributes one entry to each category
of the concatenation; when the scan raises, the whole function
degrades to the empty list. -/
theorem blockers_shape
    (parseIso : String → Option ParsedDt) (now : Int) (tasks : List Task) :
    (∀ e, overdueTasksE parseIso now tasks = .error e →
      get_blockers parseIso now tasks = []) ∧
    ∀ od, overdueTasksE parseIso now tasks = .ok od →
      (get_blockers parseIso now tasks).length ≤ 10 ∧
      (∃ k, (∀ b ∈ (get_blockers parseIso now tasks).take k,
              b.type = "high_priority_pending") ∧
            (∀ b ∈ (get_blockers parseIso now tasks).drop k, b.type = "overdue")) ∧
      (10 ≤ (tasks.filter isHighPriorityPending).length →
        ∀ b ∈ get_blockers parseIso now tasks, b.type = "high_priority_pending") ∧
      (∀ t : Task, tasks.count t = 1 → isHighPriorityPending t = true →
        isOverdue parseIso now t = true →
        (blockersFull tasks od).countP
            (fun b => decide (b.task = t) && decide (b.type = "high_priority_pending")) = 1 ∧
        (blockersFull tasks od).countP
            (fun b => decide (b.task = t) && decide (b.type = "overdue")) = 1) := by
  constructor
  · intro e he
    unfold get_blockers
    rw [he]
  intro od hok
  have hod := overdueTasksE_ok parseIso now tasks od hok
  subst hod
  have hgb : get_blockers parseIso now tasks =
      (blockersFull tasks (tasks.filter (isOverdue parseIso now))).take 10 := by
    unfold get_blockers
    rw [hok]
  have hout : get_blockers parseIso now tasks =
      ((tasks.filter isHighPriorityPending).map
          (fun t => Blocker.mk "high_priority_pending" t "high")).take 10
        ++ ((tasks.filter (isOverdue parseIso now)).map
          (fun t => Blocker.mk "overdue" t "medium")).take
            (10 - ((tasks.filter isHighPriorityPending).map
              (fun t => Blocker.mk "high_priority_pending" t "high")).length) := by
    rw [hgb]
    unfold blockersFull highPriorityBlockers overdueBlockers
    exact List.take_append_eq_append_take
  refine ⟨?_, ?_, ?_, ?_⟩
  · rw [hgb]
    exact List.length_take_le 10 _
  · refine ⟨((tasks.filter isHighPriorityPending).map
      (fun t => Blocker.mk "high_priority_pending" t "high")).take 10 |>.length, ?_, ?_⟩
    · rw [hout, List.take_left]
      intro b hb
      have := (List.take_sublist 10 _).subset hb
      rw [List.mem_map] at this
      obtain ⟨u, -, rfl⟩ := this
      rfl
    · rw [hout, List.drop_left]
      intro b hb
      have := (List.take_sublist _ _).subset hb
      rw [List.mem_map] at this
      obtain ⟨u, -, rfl⟩ := this
      rfl
  · intro h10 b hb
    rw [hgb] at hb
    unfold blockersFull highPriorityBlockers overdueBlockers at hb
    rw [List.take_append_of_le_length (by simpa using h10)] at hb
    have := (List.take_sublist 10 _).subset hb
    rw [List.mem_map] at this
    obtain ⟨u, -, rfl⟩ := this
    rfl
  · intro t hcnt hhp hov
    unfold blockersFull highPriorityBlockers overdueBlockers
    rw [List.countP_append, List.countP_append]
    rw [blocker_countP_eq "high_priority_pending" "high" isHighPriorityPending t tasks hhp hcnt,
      blocker_countP_ne "overdue" "high_priority_pending" "medium"
        (isOverdue parseIso now) t tasks (by decide),
      blocker_countP_ne "high_priority_pending" "overdue" "high"
        isHighPriorityPending t tasks (by decide),
      blocker_countP_eq "overdue" "medium" (isOverdue parseIso now) t tasks hov hcnt]
    constructor <;> simp

/-- C3 counterexample to the original claim: one high-priority pending
task plus one task whose deadline string carries a trailing `Z`; the
substituted `+00:00` form parses to an aware datetime, the comparison
raises `TypeError`, and the real `get_blockers` returns `[]` — not the
claimed concatenation, which would put the high-priority-pending entry
first. -/
theorem blockers_shape_cex :
    isHighPriorityPending (Task.mk (some "pending") (some "high") none none) = true ∧
    highPriorityBlockers
        [Task.mk (some "pending") (some "high") none none,
         Task.mk (some "pending") none (some (DlVal.str "2020-01-01T00:00:00Z")) none] ≠ [] ∧
    get_blockers awareParse 1800000000
        [Task.mk (some "pending") (some "high") none none,
         Task.mk (some "pending") none (some (DlVal.str "2020-01-01T00:00:00Z")) none] = [] := by
  refine ⟨by decide, by decide, ?_⟩
  rfl

/-- C3 witness: a single task that is both high-priority pending and
overdue appears once per category. -/
theorem blockers_shape_w :
    ([Task.mk (some "pending") (some "high") (some (DlVal.dt 0)) none].count
        (Task.mk (some "pending") (some "high") (some (DlVal.dt 0)) none) = 1) ∧
    (blockersFull [Task.mk (some "pending") (some "high") (some (DlVal.dt 0)) none]
        [Task.mk (some "pending") (some "high") (some (DlVal.dt 0)) none]).countP
      (fun b => decide
          (b.task = Task.mk (some "pending") (some "high") (some (DlVal.dt 0)) none) &&
        decide (b.type = "high_priority_pending")) = 1 ∧
    (blockersFull [Task.mk (some "pending") (some "high") (some (DlVal.dt 0)) none]
        [Task.mk (some "pending") (some "high") (some (DlVal.dt 0)) none]).countP
      (fun b => decide
          (b.task = Task.mk (some "pending") (some "high") (some (DlVal.dt 0)) none) &&
        decide (b.type = "overdue")) = 1 := by
  have h := ((blockers_shape (fun _ => none) 100
      [Task.mk (some "pending") (some "high") (some (DlVal.dt 0)) none]).2
      [Task.mk (some "pending") (some "high") (some (DlVal.dt 0)) none]
      (by rfl)).2.2.2
    (Task.mk (some "pending") (some "high") (some (DlVal.dt 0)) none)
    (by decide) (by decide) (by decide)
  exact ⟨by decide, h.1, h.2⟩

/-- C4 counterexample to the original claim: a non-empty collection
(one completed task, one `Z`-deadline task) on which the real
`get_project_health` returns the `{'status': 'error'}` sentinel —
neither `on_track` nor `at_risk`. -/
theorem project_health_threshold_cex :
    ([Task.mk (some "completed") none none none,
      Task.mk (some "pending") none (some (DlVal.str "2020-01-01T00:00:00Z")) none] ≠
        ([] : List Task)) ∧
    get_project_health awareParse 1800000000
        [Task.mk (some "completed") none none none,
         Task.mk (some "pending") none (some (DlVal.str "2020-01-01T00:00:00Z")) none] =
      HealthResult.error := by
  refine ⟨by decide, ?_⟩
  rfl

/-- C10 witness. -/
theorem unparseable_deadline_skipped_w :
    get_project_health (fun _ => none) 100
        [Task.mk (some "pending") none (some (DlVal.str "not-a-date")) none] =
      HealthResult.ok (Health.mk 1 0 0 1 0 0 [] "at_risk") ∧
    (Task.mk (some "pending") none (some (DlVal.str "not-a-date")) none) ∉
      (Health.mk 1 0 0 1 0 0 [] "at_risk").overdue_tasks := by
  refine ⟨by simp [get_project_health, overdueTasksE, overdueStep, isOverdue, deadlineValue, DlVal.truthy] <;> norm_num, ?_⟩
  exact (unparseable_deadline_skipped (fun _ => none) 100
    [Task.mk (some "pending") none (some (DlVal.str "not-a-date")) none]
    (Task.mk (some "pending") none (some (DlVal.str "not-a-date")) none)
    "not-a-date" (Health.mk 1 0 0 1 0 0 [] "at_risk")
    (by simp [get_project_health, overdueTasksE, overdueStep, isOverdue, deadlineValue, DlVal.truthy] <;> norm_num) rfl rfl).2.1

/-- C9: `get_individual_contribution` returns the `user_not_found`
sentinel exactly when neither source has a case-insensitive partial
match, and each matching source contributes its shaped data to the
result. -/
theorem individual_contribution_cases (db : DB) (user_name : String) :
    (((∀ c ∈ db.github_data, matchName user_name c.name = false) ∧
      (∀ j ∈ db.jira_data, matchName user_name j.name = false)) ↔
      get_individual_contribution db user_name = .user_not_found) ∧
    (∀ g, db.github_data.find? (fun c => matchName user_name c.name) = some g →
      ∃ r, get_individual_contribution db user_name = .ok r ∧
        r.name = user_name ∧ r.github = some (shapeGithub g)) ∧
    (∀ j, db.jira_data.find? (fun u => matchName user_name u.name) = some j →
      ∃ r, get_individual_contribution db user_name = .ok r ∧
        r.jira = some (shapeJira j)) := by
  refine ⟨⟨?_, ?_⟩, ?_, ?_⟩
  · rintro ⟨hg, hj⟩
    unfold get_individual_contribution
    have h1 : db.github_data.find? (fun c => matchName user_name c.name) = none := by
      rw [List.find?_eq_none]
      intro x hx
      simp [hg x hx]
    have h2 : db.jira_data.find? (fun j => matchName user_name j.name) = none := by
      rw [List.find?_eq_none]
      intro x hx
      simp [hj x hx]
    rw [h1, h2]
  · intro hres
    unfold get_individual_contribution at hres
    cases hg : db.github_data.find? (fun c => matchName user_name c.name) with
    | some g =>
      rw [hg] at hres
      cases hj : db.jira_data.find? (fun j => matchName user_name j.name) with
      | some j => rw [hj] at hres; simp at hres
      | none => rw [hj] at hres; simp at hres
    | none =>
      rw [hg] at hres
      cases hj : db.jira_data.find? (fun j => matchName user_name j.name) with
      | some j => rw [hj] at hres; simp at hres
      | none =>
        constructor
        · intro x hx
          have := List.find?_eq_none.mp hg x hx
          simpa using this
        · intro x hx
          have := List.find?_eq_none.mp hj x hx
          simpa using this
  · intro g hg
    unfold get_individual_contribution
    rw [hg]
    cases hj : db.jira_data.find? (fun j => matchName user_name j.name) with
    | some j => exact ⟨_, rfl, rfl, rfl⟩
    | none => exact ⟨_, rfl, rfl, rfl⟩
  · intro j hj
    unfold get_individual_contribution
    rw [hj]
    cases hg : db.github_data.find? (fun c => matchName user_name c.name) with
    | some g => exact ⟨_, rfl, rfl⟩
    | none => exact ⟨_, rfl, rfl⟩

/-- C9 witness: no source matches a nonexistent name; a matching
contributor is shaped and returned. -/
theorem individual_contribution_cases_w :
    get_individual_contribution
        (DB.mk [Contributor.mk "Aryan Sharma" (some 3) (some 10) (some 4) (some 14) []] [] [])
        "nonexistent-name" = ContributionResult.user_not_found ∧
    ∃ r, get_individual_contribution
        (DB.mk [Contributor.mk "Aryan Sharma" (some 3) (some 10) (some 4) (some 14) []] [] [])
        "aryan" = ContributionResult.ok r ∧
      r.name = "aryan" ∧
      r.github = some (shapeGithub
        (Contributor.mk "Aryan Sharma" (some 3) (some 10) (some 4) (some 14) [])) := by
  constructor
  · exact (individual_contribution_cases
      (DB.mk [Contributor.mk "Aryan Sharma" (some 3) (some 10) (some 4) (some 14) []] [] [])
      "nonexistent-name").1.mp ⟨by decide, by decide⟩
  · exact (individual_contribution_cases
      (DB.mk [Contributor.mk "Aryan Sharma" (some 3) (some 10) (some 4) (some 14) []] [] [])
      "aryan").2.1 (Contributor.mk "Aryan Sharma" (some 3) (some 10) (some 4) (some 14) [])
      (by decide)

/-- C5: a query matching no keyword group falls back to exactly the
team-performance plus project-health overview context. -/
theorem no_keyword_default_context
    (parseIso : String → Option ParsedDt) (now : Int) (db : DB) (query : String)
    (hk : ∀ w ∈ nameKeywords ++ teamKeywords ++ projectKeywords ++ blockerKeywords,
      pyIn w (pyLower query) = false) :
    gather_context parseIso now db query =
      [("team_performance",
        ContextVal.teamPerf (get_team_performance 7 db.github_data db.jira_data db.tasks)),
       ("project_health",
        ContextVal.projHealth (get_project_health parseIso now db.tasks))] := by
  have hk4 : ∀ w, (w ∈ nameKeywords ∨ w ∈ teamKeywords ∨ w ∈ projectKeywords ∨
      w ∈ blockerKeywords) → pyIn w (pyLower query) = false := by
    intro w hw
    apply hk
    rw [List.mem_append, List.mem_append, List.mem_append]
    tauto
  have h1 : nameKeywords.any (fun n => pyIn n (pyLower query)) = false := by
    rw [List.any_eq_false]
    intro x hx
    simp [hk4 x (Or.inl hx)]
  have h2 : teamKeywords.any (fun w => pyIn w (pyLower query)) = false := by
    rw [List.any_eq_false]
    intro x hx
    simp [hk4 x (Or.inr (Or.inl hx))]
  have h3 : projectKeywords.any (fun w => pyIn w (pyLower query)) = false := by
    rw [List.any_eq_false]
    intro x hx
    simp [hk4 x (Or.inr (Or.inr (Or.inl hx)))]
  have h4 : blockerKeywords.any (fun w => pyIn w (pyLower query)) = false := by
    rw [List.any_eq_false]
    intro x hx
    simp [hk4 x (Or.inr (Or.inr (Or.inr hx)))]
  simp [gather_context, h1, h2, h3, h4]

/-- C5 witness. -/
theorem no_keyword_default_context_w :
    gather_context (fun _ => none) 0 (DB.mk [] [] []) "hello" =
      [("team_performance", ContextVal.teamPerf (get_team_performance 7 [] [] [])),
       ("project_health",
        ContextVal.projHealth (get_project_health (fun _ => none) 0 []))] :=
  no_keyword_default_context (fun _ => none) 0 (DB.mk [] [] []) "hello" (by decide)

/-- When a member name resolves, the context holds its user-status and
individual-contribution entries, the latter exactly once. -/
theorem gather_context_individual
    (parseIso : String → Option ParsedDt) (now : Int) (db : DB) (query : String)
    (name : String)
    (hk : nameKeywords.any (fun n => pyIn n (pyLower query)) = true)
    (hfind : memberNames.find? (fun n => pyIn (pyLower n) (pyLower query)) = some name) :
    ("user_status", ContextVal.userStatus (get_user_status db name)) ∈
      gather_context parseIso now db query ∧
    ("individual_contribution",
      ContextVal.individual (get_individual_contribution db name)) ∈
      gather_context parseIso now db query ∧
    (gather_context parseIso now db query).countP
      (fun kv => kv.fst == "individual_contribution") = 1 := by
  simp only [gather_context, hk, if_true, hfind]
  by_cases h2 : teamKeywords.any (fun w => pyIn w (pyLower query)) = true <;>
    by_cases h3 : projectKeywords.any (fun w => pyIn w (pyLower query)) = true <;>
    by_cases h4 : blockerKeywords.any (fun w => pyIn w (pyLower query)) = true <;>
    simp [h2, h3, h4, List.countP_cons, List.countP_append]

/-- C6: a query mentioning a member name yields the individual context
for exactly one name, the first matching one in the fixed enumeration
order Aryan, Ritwik, Mohak, Manu. -/
theorem person_name_individual_context
    (parseIso : String → Option ParsedDt) (now : Int) (db : DB) (query : String)
    (hk : nameKeywords.any (fun n => pyIn n (pyLower query)) = true) :
    ∃ name pre post,
      memberNames = pre ++ name :: post ∧
      pyIn (pyLower name) (pyLower query) = true ∧
      (∀ m ∈ pre, pyIn (pyLower m) (pyLower query) = false) ∧
      ("user_status", ContextVal.userStatus (get_user_status db name)) ∈
        gather_context parseIso now db query ∧
      ("individual_contribution",
        ContextVal.individual (get_individual_contribution db name)) ∈
        gather_context parseIso now db query ∧
      (gather_context parseIso now db query).countP
        (fun kv => kv.fst == "individual_contribution") = 1 := by
  cases b1 : pyIn "aryan" (pyLower query) with
  | true =>
    have e1 : pyIn (pyLower "Aryan") (pyLower query) = true := b1
    have hfind : memberNames.find? (fun n => pyIn (pyLower n) (pyLower query)) =
        some "Aryan" := by
      simp [memberNames, e1]
    obtain ⟨m1, m2, m3⟩ := gather_context_individual parseIso now db query "Aryan" hk hfind
    exact ⟨"Aryan", [], ["Ritwik", "Mohak", "Manu"], rfl, e1, by simp, m1, m2, m3⟩
  | false =>
    have e1 : pyIn (pyLower "Aryan") (pyLower query) = false := b1
    cases b2 : pyIn "ritwik" (pyLower query) with
    | true =>
      have e2 : pyIn (pyLower "Ritwik") (pyLower query) = true := b2
      have hfind : memberNames.find? (fun n => pyIn (pyLower n) (pyLower query)) =
          some "Ritwik" := by
        simp [memberNames, e1, e2]
      obtain ⟨m1, m2, m3⟩ :=
        gather_context_individual parseIso now db query "Ritwik" hk hfind
      refine ⟨"Ritwik", ["Aryan"], ["Mohak", "Manu"], rfl, e2, ?_, m1, m2, m3⟩
      intro m hm
      rw [List.mem_singleton] at hm
      subst hm
      exact e1
    | false =>
      have e2 : pyIn (pyLower "Ritwik") (pyLower query) = false := b2
      cases b3 : pyIn "mohak" (pyLower query) with
      | true =>
        have e3 : pyIn (pyLower "Mohak") (pyLower query) = true := b3
        have hfind : memberNames.find? (fun n => pyIn (pyLower n) (pyLower query)) =
            some "Mohak" := by
          simp [memberNames, e1, e2, e3]
        obtain ⟨m1, m2, m3⟩ :=
          gather_context_individual parseIso now db query "Mohak" hk hfind
        refine ⟨"Mohak", ["Aryan", "Ritwik"], ["Manu"], rfl, e3, ?_, m1, m2, m3⟩
        intro m hm
        rw [List.mem_cons, List.mem_singleton] at hm
        rcases hm with rfl | rfl
        · exact e1
        · exact e2
      | false =>
        have e3 : pyIn (pyLower "Mohak") (pyLower query) = false := b3
        cases b4 : pyIn "manu" (pyLower query) with
        | true =>
          have e4 : pyIn (pyLower "Manu") (pyLower query) = true := b4
          have hfind : memberNames.find? (fun n => pyIn (pyLower n) (pyLower query)) =
              some "Manu" := by
            simp [memberNames, e1, e2, e3, e4]
          obtain ⟨m1, m2, m3⟩ :=
            gather_context_individual parseIso now db query "Manu" hk hfind
          refine ⟨"Manu", ["Aryan", "Ritwik", "Mohak"], [], rfl, e4, ?_, m1, m2, m3⟩
          intro m hm
          rw [List.mem_cons, List.mem_cons, List.mem_singleton] at hm
          rcases hm with rfl | rfl | rfl
          · exact e1
          · exact e2
          · exact e3
        | false =>
          exact absurd hk (by simp [nameKeywords, b1, b2, b3, b4])

/-- C6 witness: a query naming both Ritwik and Manu resolves to
Ritwik, the first in enumeration order. -/
theorem person_name_individual_context_w :
    ∃ name pre post,
      memberNames = pre ++ name :: post ∧
      pyIn (pyLower name) (pyLower "what about Ritwik and Manu") = true ∧
      (∀ m ∈ pre, pyIn (pyLower m) (pyLower "what about Ritwik and Manu") = false) ∧
      ("user_status",
        ContextVal.userStatus (get_user_status (DB.mk [] [] []) name)) ∈
        gather_context (fun _ => none) 0 (DB.mk [] [] []) "what about Ritwik and Manu" ∧
      ("individual_contribution",
        ContextVal.individual (get_individual_contribution (DB.mk [] [] []) name)) ∈
        gather_context (fun _ => none) 0 (DB.mk [] [] []) "what about Ritwik and Manu" ∧
      (gather_context (fun _ => none) 0 (DB.mk [] [] [])
          "what about Ritwik and Manu").countP
        (fun kv => kv.fst == "individual_contribution") = 1 :=
  person_name_individual_context (fun _ => none) 0 (DB.mk [] [] [])
    "what about Ritwik and Manu" (by decide)

/-- C1: when the language-model collaborator fails, `process_query`
returns a fixed apology string rather than an error value: the
distinct quota apology exactly when the error text contains `429` or
(case-insensitively) `quota`, the generic fallback otherwise, and the
two apologies always differ. -/
theorem process_query_failure_apology
    (llm : String → String → Except String String) (pyStr : ContextVal → String)
    (parseIso : String → Option ParsedDt) (now : Int) (db : DB)
    (query language err : String)
    (hllm : ∀ s u, llm s u = Except.error err) :
    ((pyIn "429" err || pyIn "quota" (pyLower err)) = true →
      process_query llm pyStr parseIso now db query language =
        get_quota_exceeded_response language) ∧
    ((pyIn "429" err || pyIn "quota" (pyLower err)) = false →
      process_query llm pyStr parseIso now db query language =
        get_fallback_response language) ∧
    get_quota_exceeded_response language ≠ get_fallback_response language := by
  refine ⟨?_, ?_, ?_⟩
  · intro hq
    simp [process_query, generate_response, hllm, hq]
  · intro hq
    simp [process_query, generate_response, hllm, hq]
  · unfold get_quota_exceeded_response get_fallback_response
    by_cases h1 : language.startsWith "hi" = true <;>
      by_cases h2 : (language == "hi") = true <;>
      simp [h1, h2] <;> decide

/-- C1 witness: a constantly rate-limited collaborator yields the
quota apology. -/
theorem process_query_failure_apology_w :
    ((pyIn "429" "Error code: 429 - rate limit exceeded" ||
      pyIn "quota" (pyLower "Error code: 429 - rate limit exceeded")) = true) ∧
    process_query (fun _ _ => Except.error "Error code: 429 - rate limit exceeded")
        (fun _ => "") (fun _ => none) 0 (DB.mk [] [] []) "team status" "en" =
      get_quota_exceeded_response "en" :=
  ⟨by decide,
   (process_query_failure_apology
      (fun _ _ => Except.error "Error code: 429 - rate limit exceeded")
      (fun _ => "") (fun _ => none) 0 (DB.mk [] [] []) "team status" "en"
      "Error code: 429 - rate limit exceeded" (fun _ _ => rfl)).1 (by decide)⟩

/-- Specification-side reference sort: insert behind every entry with
at least as many commits, so earlier entries keep their place on
ties. -/
def insertByCommitsDesc (c : Contributor) : List Contributor → List Contributor
  | [] => [c]
  | x :: xs =>
    if commitsOf x ≤ commitsOf c then c :: x :: xs
    else x :: insertByCommitsDesc c xs

/-- Specification-side reference: stable sort, descending by commit
count. -/
def sortByCommitsDesc : List Contributor → List Contributor
  | [] => []
  | c :: cs => insertByCommitsDesc c (sortByCommitsDesc cs)

/-- Transitivity of the descending-by-commits comparison. -/
theorem commitsDesc_trans : ∀ (a b c : Contributor),
    decide (commitsOf b ≤ commitsOf a) = true →
    decide (commitsOf c ≤ commitsOf b) = true →
    decide (commitsOf c ≤ commitsOf a) = true := by
  intro a b c hab hbc
  simp only [decide_eq_true_eq] at *
  omega

/-- Totality of the descending-by-commits comparison. -/
theorem commitsDesc_total : ∀ (a b : Contributor),
    (decide (commitsOf b ≤ commitsOf a) || decide (commitsOf a ≤ commitsOf b)) = true := by
  intro a b
  simp only [Bool.or_eq_true, decide_eq_true_eq]
  omega

/-- Inserting an element after a block of strictly greater keys and
before a block of keys at most its own. -/
theorem insertByCommitsDesc_append (a : Contributor) (l₁ l₂ : List Contributor)
    (h₁ : ∀ b ∈ l₁, ¬ commitsOf b ≤ commitsOf a)
    (h₂ : ∀ c ∈ l₂, commitsOf c ≤ commitsOf a) :
    insertByCommitsDesc a (l₁ ++ l₂) = l₁ ++ a :: l₂ := by
  induction l₁ with
  | nil =>
    cases l₂ with
    | nil => rfl
    | cons c cs =>
      simp only [List.nil_append, insertByCommitsDesc]
      rw [if_pos (h₂ c (List.mem_cons_self c cs))]
  | cons x xs ih =>
    simp only [List.cons_append, insertByCommitsDesc]
    rw [if_neg (h₁ x (List.mem_cons_self x xs))]
    rw [List.append_eq, ih (fun b hb => h₁ b (List.mem_cons_of_mem x hb))]

/-- The stable merge sort used in the embedding agrees with the
specification's reference stable descending sort. -/
theorem mergeSort_eq_sortByCommitsDesc (l : List Contributor) :
    l.mergeSort (fun a b => decide (commitsOf b ≤ commitsOf a)) = sortByCommitsDesc l := by
  induction l with
  | nil => simp [sortByCommitsDesc, List.mergeSort_nil]
  | cons a l ih =>
    obtain ⟨l₁, l₂, h1, h2, h3⟩ :=
      List.mergeSort_cons commitsDesc_trans commitsDesc_total a l
    rw [h1]
    have hsorted := List.sorted_mergeSort commitsDesc_trans commitsDesc_total (a :: l)
    rw [h1] at hsorted
    have h₂ : ∀ c ∈ l₂, commitsOf c ≤ commitsOf a := by
      intro c hc
      have hp := (List.pairwise_append.mp hsorted).2.1
      have := (List.pairwise_cons.mp hp).1 c hc
      simpa using this
    have h₁ : ∀ b ∈ l₁, ¬ commitsOf b ≤ commitsOf a := by
      intro b hb
      have := h3 b hb
      simpa using this
    simp only [sortByCommitsDesc]
    rw [← ih, h2, insertByCommitsDesc_append a l₁ l₂ h₁ h₂]

/-- C7: `top_contributors` is the first five entries of the stable
descending-by-commits sort of the contributor list: at most five
entries, sorted descending, ties kept in original order. -/
theorem top_contributors_sorted (days : Nat) (contributors : List Contributor)
    (jira_users : List JiraUser) (all_tasks : List Task) :
    (get_team_performance days contributors jira_users all_tasks).top_contributors =
      (sortByCommitsDesc contributors).take 5 ∧
    (get_team_performance days contributors jira_users all_tasks).top_contributors.length ≤ 5 ∧
    (get_team_performance days contributors jira_users
        all_tasks).top_contributors.Pairwise
      (fun a b => commitsOf b ≤ commitsOf a) := by
  have htop : (get_team_performance days contributors jira_users all_tasks).top_contributors =
      (contributors.mergeSort (fun a b => decide (commitsOf b ≤ commitsOf a))).take 5 := rfl
  refine ⟨?_, ?_, ?_⟩
  · rw [htop, mergeSort_eq_sortByCommitsDesc]
  · rw [htop]
    exact List.length_take_le 5 _
  · rw [htop]
    have hs := List.sorted_mergeSort commitsDesc_trans commitsDesc_total contributors
    have := hs.sublist (List.take_sublist 5 _)
    exact this.imp (fun h => by simpa using h)

end Datathon
